import Mathlib

/-!
# Verification of pymumble against its specification

Shallow embedding of the parts of `pymumble_py3` that the checked claims
touch: the Mumble varint codec (`tools.py`), the per-user inbound sound
queue (`soundqueue.py`), the channel tree (`channels.py`), the user and
channel state shadows (`users.py`, `channels.py`), the blob cache
(`blobs.py`) and the command envelope (`messages.py`, `commands.py`).

Python floats are modelled as exact rationals, Python ints as `Int`/`Nat`,
byte strings as `List Nat` (each entry one byte), and fallible operations
as `Except`/`Option`.
-/

namespace Pymumble

/-- Modelled from the spec: `constants.py` is not under `src/`.  §1/§4.4 of
the spec fix the sample rate at 48 kHz (`PYMUMBLE_SAMPLERATE = 48000`). -/
def PYMUMBLE_SAMPLERATE : ℕ := 48000

/-- Modelled from the spec: `constants.py` is not under `src/`.  §4.4 of the
spec fixes the per-sequence playout step `FRAME_DURATION = 0.01 s`, the
value `soundqueue.py` reads as `PYMUMBLE_SEQUENCE_DURATION`. -/
def PYMUMBLE_SEQUENCE_DURATION : ℚ := 1 / 100

namespace VarInt

/-- `struct.pack("!B", x)`: one big-endian byte. -/
def pack8 (x : ℕ) : List ℕ := [x % 256]

/-- `struct.pack("!H", x)`: two big-endian bytes. -/
def pack16 (x : ℕ) : List ℕ := [x / 256 % 256, x % 256]

/-- `struct.pack("!L", x)`: four big-endian bytes. -/
def pack32 (x : ℕ) : List ℕ :=
  [x / 16777216 % 256, x / 65536 % 256, x / 256 % 256, x % 256]

/-- `struct.pack("!Q", x)`: eight big-endian bytes. -/
def pack64 (x : ℕ) : List ℕ :=
  [x / 72057594037927936 % 256, x / 281474976710656 % 256, x / 1099511627776 % 256,
   x / 4294967296 % 256, x / 16777216 % 256, x / 65536 % 256, x / 256 % 256, x % 256]

/-- The `if value <= …` chain of `VarInt.encode` (tools.py lines 27-38),
applied to `value = abs(self.value)`. -/
def encodeBody (value : ℕ) : List ℕ :=
  if value ≤ 0x7F then pack8 value
  else if value ≤ 0x3FFF then pack16 (0x8000 ||| value)
  else if value ≤ 0x1FFFFF then pack8 (0xC0 ||| (value >>> 16)) ++ pack16 (0xFFFF &&& value)
  else if value ≤ 0xFFFFFFF then pack32 (0xE0000000 ||| value)
  else if value ≤ 0xFFFFFFFF then pack8 0b11110000 ++ pack32 value
  else pack8 0b11110100 ++ pack64 value

/-- `VarInt.encode` (tools.py lines 16-38).  A negative value in `[-3, -1]`
uses the one-byte `111111xx` form; any other negative value emits the
`0b11111000` prefix followed by the encoding of its absolute value. -/
def encode (n : ℤ) : List ℕ :=
  let value := n.natAbs
  if n < 0 then
    if -3 ≤ n then pack8 (0b11111100 ||| value)
    else pack8 0b11111000 ++ encodeBody value
  else encodeBody value

/-- Failure modes of `VarInt.decode`: the explicit `InvalidVarInt` raises,
and the `TypeError` that `self.value = -result` raises when no branch
matched and `result` is still `None`. -/
inductive DecodeError
  | invalidVarInt
  | typeError
deriving DecidableEq

/-- `self.value = -result if is_negative else result` (tools.py 99-102). -/
def applySign (is_negative : Bool) (result : ℕ) : ℤ :=
  if is_negative then -(result : ℤ) else (result : ℤ)

/-- `b0 * 256 + b1`, the value `struct.unpack("!H", …)` reads. -/
def unpack16 (b0 b1 : ℕ) : ℕ := b0 * 256 + b1

/-- The value `struct.unpack("!L", …)` reads from four bytes. -/
def unpack32 (b0 b1 b2 b3 : ℕ) : ℕ := ((b0 * 256 + b1) * 256 + b2) * 256 + b3

/-- The value `struct.unpack("!Q", …)` reads from eight bytes. -/
def unpack64 (b0 b1 b2 b3 b4 b5 b6 b7 : ℕ) : ℕ :=
  ((((((b0 * 256 + b1) * 256 + b2) * 256 + b3) * 256 + b4) * 256 + b5)
    * 256 + b6) * 256 + b7

/-- The branch chain of `VarInt.decode` (tools.py lines 60-104), run on the
byte string after the optional `111110__` negative prefix was stripped,
with `is_negative` and the size consumed so far.  Each branch mirrors the
first-byte mask test of the source and its length guard. -/
def decodeChain (varint : List ℕ) (is_negative : Bool) (size : ℕ) :
    Except DecodeError (ℤ × ℕ) :=
  match varint with
  | [] => .error .invalidVarInt
  | first :: rest =>
    if first &&& 0b10000000 = 0b00000000 then
      .ok (applySign is_negative first, size + 1)
    else if first &&& 0b11111100 = 0b11111100 then
      .ok (applySign true (first &&& 0b00000011), size + 1)
    else if first &&& 0b11000000 = 0b10000000 then
      match rest with
      | [] => .error .invalidVarInt
      | b1 :: _ =>
        .ok (applySign is_negative (unpack16 first b1 &&& 0b0011111111111111), size + 2)
    else if first &&& 0b11100000 = 0b11000000 then
      match rest with
      | b1 :: b2 :: _ =>
        .ok (applySign is_negative (((first &&& 0b00011111) <<< 16) + unpack16 b1 b2), size + 3)
      | _ => .error .invalidVarInt
    else if first &&& 0b11110000 = 0b11100000 then
      match rest with
      | b1 :: b2 :: b3 :: _ =>
        .ok (applySign is_negative (unpack32 first b1 b2 b3 &&& 0x0FFFFFFF), size + 4)
      | _ => .error .invalidVarInt
    else if first &&& 0b11111100 = 0b11110000 then
      match rest with
      | b1 :: b2 :: b3 :: b4 :: _ =>
        .ok (applySign is_negative (unpack32 b1 b2 b3 b4), size + 5)
      | _ => .error .invalidVarInt
    else if first &&& 0b11111100 = 0b11110100 then
      match rest with
      | b1 :: b2 :: b3 :: b4 :: b5 :: b6 :: b7 :: b8 :: _ =>
        .ok (applySign is_negative (unpack64 b1 b2 b3 b4 b5 b6 b7 b8), size + 9)
      | _ => .error .invalidVarInt
    else .error .typeError

/-- `VarInt.decode` (tools.py lines 40-104): reject the empty string, strip
an optional `111110__` negative prefix (requiring at least one further
byte), then run the branch chain.  Returns the decoded value together with
the number of bytes consumed. -/
def decode (value : List ℕ) : Except DecodeError (ℤ × ℕ) :=
  match value with
  | [] => .error .invalidVarInt
  | first :: rest =>
    if first &&& 0b11111100 = 0b11111000 then
      match rest with
      | [] => .error .invalidVarInt
      | _ => decodeChain rest true 1
    else decodeChain (first :: rest) false 0


end VarInt

/-! ## Sound queue (`soundqueue.py`)

Wallclock readings of `time.time()` are passed in explicitly as rationals;
the decoded PCM bytes are passed in as the decoder output. -/

/-- Python `int()` truncation toward zero, on an exact rational. -/
def pyInt (q : ℚ) : ℤ := if 0 ≤ q then ⌊q⌋ else -⌊-q⌋

/-- `SoundChunk` (soundqueue.py lines 133-154): all attributes the
constructor sets.  `duration` is a stored attribute because
`extract_sound` later mutates it independently of `size`. -/
structure SoundChunk where
  timestamp : ℚ
  time : ℚ
  pcm : List ℕ
  sequence : ℤ
  size : ℤ
  duration : ℚ
  type : ℕ
  target : ℕ
deriving DecidableEq

/-- `SoundChunk.__init__`: `duration = float(size) / 2 / PYMUMBLE_SAMPLERATE`. -/
def SoundChunk.mkChunk (pcm : List ℕ) (sequence : ℤ) (size : ℤ)
    (calculated_time : ℚ) (type target : ℕ) (timestamp : ℚ) : SoundChunk :=
  { timestamp := timestamp
    time := calculated_time
    pcm := pcm
    sequence := sequence
    size := size
    duration := (size : ℚ) / 2 / (PYMUMBLE_SAMPLERATE : ℚ)
    type := type
    target := target }

/-- `SoundChunk.extract_sound` (soundqueue.py lines 156-174).  Returns the
extracted chunk together with the mutated remainder of `self`.  The Python
slices `pcm[:size]` / `pcm[size:]` are modelled for the nonnegative sizes
the callers produce. -/
def SoundChunk.extract_sound (self : SoundChunk) (duration : ℚ) :
    SoundChunk × SoundChunk :=
  let size : ℤ := pyInt (duration * 2 * (PYMUMBLE_SAMPLERATE : ℚ))
  let result := SoundChunk.mkChunk (self.pcm.take size.toNat) self.sequence size
    self.time self.type self.target self.timestamp
  (result,
    { self with
        pcm := self.pcm.drop size.toNat
        duration := self.duration - duration
        time := self.time + duration
        size := self.size - size })

/-- The mutable state of a `SoundQueue` (soundqueue.py lines 24-26): the
deque (head at index 0) and the burst anchor. -/
structure SoundQueueState where
  queue : List SoundChunk
  start_sequence : Option ℤ
  start_time : Option ℚ
deriving DecidableEq

/-- `SoundQueue.__init__`: empty deque, no burst anchor. -/
def initialSoundQueue : SoundQueueState :=
  { queue := [], start_sequence := none, start_time := none }

/-- Python truthiness of `self.start_sequence`: both `None` and `0` are
falsy. -/
def optTruthy : Option ℤ → Bool
  | none => false
  | some s => decide (s ≠ 0)

/-- The reordering loop of `SoundQueue.add` (soundqueue.py lines 74-83),
fuelled to make the `while` structurally recursive: `cpt` is never
incremented by the loop body, so the compared pair is always
`queue[0], queue[1]`, and after one swap the condition fails.
`bubbleLoop_eq_swapAtHead` below shows any fuel ≥ 1 gives the same result,
so the fuel bound is immaterial. -/
def bubbleLoop : ℕ → List SoundChunk → List SoundChunk
  | 0, q => q
  | fuel + 1, q =>
    match q with
    | c0 :: c1 :: rest =>
      if c0.time < c1.time then bubbleLoop fuel (c1 :: c0 :: rest) else q
    | q => q

/-- `SoundQueue.add` (soundqueue.py lines 45-99) after a successful decode:
takes the decoded PCM, the packet sequence, codec type, target and the
current `time.time()` reading; returns the new state and the enqueued
chunk.  The `timestamp` attribute receives the `SoundChunk.__init__`
default argument, a constant evaluated once at import time, modelled as 0. -/
def SoundQueue.add (st : SoundQueueState) (pcm : List ℕ) (sequence : ℤ)
    (type target : ℕ) (now : ℚ) : SoundQueueState × SoundChunk :=
  let newBurst : Bool :=
    !optTruthy st.start_sequence || decide (sequence ≤ st.start_sequence.getD 0)
  let start_time : ℚ := if newBurst then now else st.start_time.getD 0
  let start_sequence : ℤ := if newBurst then sequence else st.start_sequence.getD 0
  let calculated_time : ℚ :=
    if newBurst then now
    else st.start_time.getD 0
      + ((sequence : ℚ) - ((st.start_sequence.getD 0 : ℤ) : ℚ)) * PYMUMBLE_SEQUENCE_DURATION
  let newsound := SoundChunk.mkChunk pcm sequence (pcm.length : ℤ) calculated_time
    type target 0
  let queue1 := newsound :: st.queue
  ({ queue := bubbleLoop queue1.length queue1
     start_sequence := some start_sequence
     start_time := some start_time },
   newsound)

/-- Fold `SoundQueue.add` over a list of `(pcm, sequence, now)` triples
(all with the Opus type 4 and target 0). -/
def SoundQueue.addMany (st : SoundQueueState) : List (List ℕ × ℤ × ℚ) → SoundQueueState
  | [] => st
  | (pcm, sequence, now) :: rest =>
    SoundQueue.addMany (SoundQueue.add st pcm sequence 4 0 now).1 rest

/-- The ordering invariant claimed for the queue: every adjacent pair
satisfies `q[i].time ≥ q[i+1].time` (head at index 0). -/
def queueOrdered : List SoundChunk → Bool
  | c0 :: c1 :: rest => decide (c1.time ≤ c0.time) && queueOrdered (c1 :: rest)
  | _ => true

/-- A concrete freshly decoded chunk: 20 PCM bytes, so
`duration = 20 / 2 / 48000 = 1/4800 s`. -/
def exampleChunk : SoundChunk :=
  SoundChunk.mkChunk (List.replicate 20 0) 0 20 0 4 0 0

/-! ## Channel tree (`channels.py`)

A `Channel` is a dict keyed by wire field names; the claims touch
`channel_id` (always set by `__init__`), `name` and `parent`, where a
missing key is `none`.  The `Channels` container is a dict from channel id
to channel, modelled as an association list in insertion order (the order
`self.values()` iterates). -/

/-- Errors the channel queries can raise: the explicit
`UnknownChannelError`, `KeyError` from dict subscripts, and the
`AttributeError` that calling a missing method raises. -/
inductive ChannelsError
  | unknownChannelError
  | keyError
  | attributeError
deriving DecidableEq

/-- The attributes of one channel that the tree queries read. -/
structure Channel where
  channel_id : ℕ
  name : Option String
  parent : Option ℕ
deriving DecidableEq

/-- The `Channels` dict: id/channel pairs in insertion order. -/
def Channels : Type := List (ℕ × Channel)

/-- `self[id]` on the channels dict. -/
def Channels.lookup (chans : Channels) (id : ℕ) : Option Channel :=
  ((chans : List (ℕ × Channel)).find? (fun p => p.1 = id)).map (fun p => p.2)

/-- `self.values()` in insertion order. -/
def Channels.valuesList (chans : Channels) : List Channel :=
  (chans : List (ℕ × Channel)).map (fun p => p.2)

/-- `Channels.get_childs` (channels.py lines 73-81).  The guard
`item.get("parent") and item["parent"] == channel["channel_id"]` is Python
truthiness: a missing `parent` key and a parent id of `0` are both falsy,
so such channels are never collected. -/
def Channels.get_childs (chans : Channels) (channel : Channel) : List Channel :=
  (Channels.valuesList chans).filter (fun item =>
    match item.parent with
    | none => false
    | some p => decide (p ≠ 0) && decide (p = channel.channel_id))

/-- The inner `for subchannel in …` search of `find_by_tree` (channels.py
lines 61-65): first child whose `name` equals the requested one;
`subchannel["name"]` on a channel without the key raises `KeyError`. -/
def findChildByName : List Channel → String → Except ChannelsError (Option Channel)
  | [], _ => .ok none
  | sub :: rest, name =>
    match sub.name with
    | none => .error .keyError
    | some n => if n = name then .ok (some sub) else findChildByName rest name

/-- `.values()` called on a Python `list`: lists have no such method, so
the call raises `AttributeError`.  This is what channels.py line 61 does to
the list returned by `get_childs`. -/
def listValues (_l : List Channel) : Except ChannelsError (List Channel) :=
  .error .attributeError

/-- The `for name in tree` walk of `find_by_tree` (channels.py lines 59-69):
each level iterates `self.get_childs(current).values()` — the `.values()`
call on the list raises before any child is examined — and a miss would
raise `UnknownChannelError`. -/
def findByTreeGo (chans : Channels) : Channel → List String → Except ChannelsError Channel
  | current, [] => .ok current
  | current, name :: rest =>
    match listValues (Channels.get_childs chans current) with
    | .error e => .error e
    | .ok subs =>
      match findChildByName subs name with
      | .error e => .error e
      | .ok none => .error .unknownChannelError
      | .ok (some sub) => findByTreeGo chans sub rest

/-- `Channels.find_by_tree` (channels.py lines 52-71): starts at
`self[0]` and walks the path. -/
def Channels.find_by_tree (chans : Channels) (tree : List String) :
    Except ChannelsError Channel :=
  match Channels.lookup chans 0 with
  | none => .error .keyError
  | some c => findByTreeGo chans c tree

/-- The `while current["channel_id"] != 0` loop of `Channels.get_tree`
(channels.py lines 92-104), fuelled: each iteration prepends `current` to
the accumulator and then reloads `current = self[current["channel_id"]]` —
the entry under the same id just visited, not the parent.  Exhausted fuel
(`none`) means the loop has not terminated within that many iterations. -/
def getTreeAux (chans : Channels) : ℕ → Channel → List Channel → Option (List Channel)
  | 0, _, _ => none
  | fuel + 1, current, tree =>
    if current.channel_id ≠ 0 then
      match Channels.lookup chans current.channel_id with
      | none => none
      | some next => getTreeAux chans fuel next (current :: tree)
    else
      match Channels.lookup chans 0 with
      | none => none
      | some root => some (root :: tree)

/-- `Channels.get_tree`, with an explicit iteration budget. -/
def Channels.get_tree (chans : Channels) (fuel : ℕ) (channel : Channel) :
    Option (List Channel) :=
  getTreeAux chans fuel channel []

/-- The three-channel fixture of the claims:
`{0: "Root", 1: "Lobby" (parent 0), 2: "Team" (parent 1)}`. -/
def exampleChannels : Channels :=
  [(0, { channel_id := 0, name := some "Root", parent := none }),
   (1, { channel_id := 1, name := some "Lobby", parent := some 0 }),
   (2, { channel_id := 2, name := some "Team", parent := some 1 })]

/-- The channel with id 1 from the fixture. -/
def exampleLobby : Channel := { channel_id := 1, name := some "Lobby", parent := some 0 }

/-! ## Blob cache (`blobs.py`) -/

/-- A Python value stored in a message field or attribute dict. -/
inductive FieldValue
  | intVal : ℤ → FieldValue
  | strVal : String → FieldValue
  | boolVal : Bool → FieldValue
  | bytesVal : List ℕ → FieldValue
deriving DecidableEq

/-- A `RequestBlob` protobuf message: the three repeated fields, each a
list of 32-bit words. -/
structure RequestBlob where
  session_comment : List ℕ
  session_texture : List ℕ
  channel_description : List ℕ
deriving DecidableEq

/-- The big-endian 32-bit words of a byte string (groups of four). -/
def beWords : List ℕ → List ℕ
  | b0 :: b1 :: b2 :: b3 :: rest =>
    (((b0 * 256 + b1) * 256 + b2) * 256 + b3) :: beWords rest
  | _ => []

/-- `struct.unpack("!5I", hash)`: requires exactly 20 bytes (`none` models
the `struct.error` raise). -/
def unpack5I (hash : List ℕ) : Option (List ℕ) :=
  if hash.length = 20 then some (beWords hash) else none

/-- The state of the `Blobs` dict plus the `RequestBlob` messages passed to
`send_message` so far. -/
structure BlobsState where
  cache : List (FieldValue × FieldValue)
  sent : List RequestBlob
deriving DecidableEq

/-- `hash in self` on the blobs dict. -/
def BlobsState.hasHash (st : BlobsState) (hash : FieldValue) : Bool :=
  st.cache.any (fun p => p.1 = hash)

/-- `self[hash] = value` dict assignment on the blobs dict. -/
def BlobsState.setBlob (st : BlobsState) (hash value : FieldValue) : BlobsState :=
  if st.hasHash hash then
    { st with cache := st.cache.map (fun p => if p.1 = hash then (hash, value) else p) }
  else { st with cache := st.cache ++ [(hash, value)] }

/-- `Blobs.get_user_comment` (blobs.py lines 20-27): a cached hash returns
immediately with no message; otherwise the 20-byte hash is unpacked and one
`RequestBlob` with `session_comment` set is sent.  The cache itself is not
touched. -/
def Blobs.get_user_comment (st : BlobsState) (hash : FieldValue) : Option BlobsState :=
  if st.hasHash hash then some st
  else
    match hash with
    | .bytesVal h =>
      match unpack5I h with
      | none => none
      | some ws => some { st with sent := st.sent ++
          [{ session_comment := ws, session_texture := [], channel_description := [] }] }
    | _ => none

/-- `Blobs.get_user_texture` (blobs.py lines 29-37). -/
def Blobs.get_user_texture (st : BlobsState) (hash : FieldValue) : Option BlobsState :=
  if st.hasHash hash then some st
  else
    match hash with
    | .bytesVal h =>
      match unpack5I h with
      | none => none
      | some ws => some { st with sent := st.sent ++
          [{ session_comment := [], session_texture := ws, channel_description := [] }] }
    | _ => none

/-- `Blobs.get_channel_description` (blobs.py lines 39-47). -/
def Blobs.get_channel_description (st : BlobsState) (hash : FieldValue) : Option BlobsState :=
  if st.hasHash hash then some st
  else
    match hash with
    | .bytesVal h =>
      match unpack5I h with
      | none => none
      | some ws => some { st with sent := st.sent ++
          [{ session_comment := [], session_texture := [], channel_description := ws }] }
    | _ => none

/-- The all-zero 20-byte hash, as a bytes value. -/
def exampleHash : FieldValue := .bytesVal (List.replicate 20 0)

/-! ## User and channel state updates (`users.py`, `channels.py`) -/

/-- A protobuf message as its list of present `(field name, value)` pairs,
in the order `ListFields()` yields them. -/
structure PbMessage where
  fields : List (String × FieldValue)
deriving DecidableEq

/-- The value of a present field. -/
def PbMessage.getField (m : PbMessage) (name : String) : Option FieldValue :=
  (m.fields.find? (fun fv => fv.1 = name)).map (fun fv => fv.2)

/-- A user or channel: the flat attribute dict, in insertion order. -/
abbrev AttrBag : Type := List (String × FieldValue)

/-- `name in self` on an attribute dict. -/
def AttrBag.hasKey (bag : AttrBag) (name : String) : Bool :=
  bag.any (fun kv => kv.1 = name)

/-- `self[name]` lookup (`none` when the key is missing). -/
def AttrBag.get? (bag : AttrBag) (name : String) : Option FieldValue :=
  (bag.find? (fun kv => kv.1 = name)).map (fun kv => kv.2)

/-- `self[name] = v` dict assignment. -/
def AttrBag.set (bag : AttrBag) (name : String) (v : FieldValue) : AttrBag :=
  if bag.hasKey name then
    bag.map (fun kv => if kv.1 = name then (name, v) else kv)
  else bag ++ [(name, v)]

/-- `update_field` (users.py lines 104-113, channels.py lines 169-178):
compare-and-set that returns the mutated dict and the diff recorded (empty
unless the key was absent or the value changed). -/
def update_field (self : AttrBag) (name : String) (field : FieldValue) :
    AttrBag × List (String × FieldValue) :=
  if self.get? name = some field then (self, [])
  else (self.set name field, [(name, field)])

/-- `actions.update(d)` merging a diff into the actions dict. -/
def dictUpdate (actions : AttrBag) (upd : List (String × FieldValue)) : AttrBag :=
  upd.foldl (fun acc kv => AttrBag.set acc kv.1 kv.2) actions

/-- The shared `for (field, value) in message.ListFields()` loop of the two
`update` methods: skip the listed names, apply `update_field` to the rest
and merge each diff into `actions`. -/
def updateLoop (skip : String → Bool) :
    AttrBag × AttrBag → List (String × FieldValue) → AttrBag × AttrBag
  | acc, [] => acc
  | acc, fv :: rest =>
    updateLoop skip
      (if skip fv.1 then acc
       else
         let r := update_field acc.1 fv.1 fv.2
         (r.1, dictUpdate acc.2 r.2)) rest

/-- The skip set of the `User.update` field loop (users.py line 87). -/
def userSkipNames (n : String) : Bool :=
  n == "session" || n == "actor" || n == "comment" || n == "texture"

/-- The seeding of the actions dict of `User.update` (users.py lines
83-84): `actions["actor"] = message.actor` whenever the message has the
field. -/
def userActions0 (message : PbMessage) : AttrBag :=
  match message.getField "actor" with
  | some v => [("actor", v)]
  | none => []

/-- The skip set of the `Channel.update` field loop (channels.py line 149). -/
def channelSkipNames (n : String) : Bool :=
  n == "session" || n == "actor" || n == "description_hash"

/-- `User.update` (users.py lines 79-102): seeds the actions dict with
`actor` when the message has it, loops over the fields skipping
`session`, `actor`, `comment`, `texture`, then caches or fetches the
comment and texture blobs.  Returns the mutated user, the actions diff and
the blob state (`none` when a fetch raises). -/
def User.update (self : AttrBag) (blobs : BlobsState) (message : PbMessage) :
    AttrBag × AttrBag × Option BlobsState :=
  let sa := updateLoop userSkipNames (self, userActions0 message) message.fields
  let blobs1 : Option BlobsState :=
    match message.getField "comment_hash" with
    | none => some blobs
    | some h =>
      match message.getField "comment" with
      | some c => some (blobs.setBlob h c)
      | none => Blobs.get_user_comment blobs h
  let blobs2 : Option BlobsState :=
    match blobs1 with
    | none => none
    | some b =>
      match message.getField "texture_hash" with
      | none => some b
      | some h =>
        match message.getField "texture" with
        | some t => some (b.setBlob h t)
        | none => Blobs.get_user_texture b h
  (sa.1, sa.2, blobs2)

/-- `Channel.update` (channels.py lines 144-164): loops over the fields
skipping `session`, `actor`, `description_hash`, then re-applies
`update_field` to `description_hash` (merging its diff into the actions)
and caches or fetches the description blob. -/
def Channel.update (self : AttrBag) (blobs : BlobsState) (message : PbMessage) :
    AttrBag × AttrBag × Option BlobsState :=
  let sa := updateLoop channelSkipNames (self, []) message.fields
  match message.getField "description_hash" with
  | none => (sa.1, sa.2, some blobs)
  | some h =>
    let r := update_field sa.1 "description_hash" h
    let actions2 := dictUpdate sa.2 r.2
    match message.getField "description" with
    | some d => (r.1, actions2, some (blobs.setBlob h d))
    | none => (r.1, actions2, Blobs.get_channel_description blobs h)

/-- A fresh user as `User.__init__` creates it (session 7, channel 0). -/
def exampleUser : AttrBag := [("session", .intVal 7), ("channel_id", .intVal 0)]

/-- A `UserState` message carrying `session`, `actor`, an inline `comment`
and its `comment_hash`, in field-number order. -/
def exampleUserStateMsg : PbMessage :=
  { fields := [("session", .intVal 7), ("actor", .intVal 9),
               ("comment", .bytesVal [1, 2]),
               ("comment_hash", .bytesVal (List.replicate 20 1))] }

/-! ## Command envelope (`messages.py`, `commands.py`) -/

/-- The command kinds of `messages.py` (their `constants.py` string values
are immaterial to the claims). -/
inductive CmdKind
  | moveCmd
  | textMessage
  | textPrivateMessage
  | modUserState
  | createChannel
  | removeChannel
  | voiceTarget
deriving DecidableEq

/-- Raised by attribute access on an attribute that was never created. -/
inductive PyExc
  | attributeError
deriving DecidableEq

/-- A `Cmd` instance as a bag of attributes: the outer `Option` is `none`
when the attribute was never created on the instance.  `lockHeld` models
the `lock` attribute together with whether the lock is held. -/
structure CmdObj where
  cmd_id : Option (Option ℕ)
  lockHeld : Option Bool
  cmd : Option (Option CmdKind)
  parameters : Option (Option (List (String × FieldValue)))
deriving DecidableEq

/-- `Cmd.__init__` (messages.py lines 14-20): creates `cmd_id = None`, a
fresh unheld `lock`, `cmd = None`, `parameters = None`. -/
def Cmd.initObj : CmdObj :=
  { cmd_id := some none, lockHeld := some false,
    cmd := some none, parameters := some none }

/-- `ModUserState.__init__` (messages.py lines 57-62): unlike every other
`Cmd` subclass it does NOT call `Cmd.__init__`, so only `cmd` and
`parameters` exist on the instance. -/
def ModUserState.initObj (_session : ℤ) (params : List (String × FieldValue)) : CmdObj :=
  { cmd_id := none, lockHeld := none,
    cmd := some (some .modUserState), parameters := some (some params) }

/-- `MoveCmd.__init__` (messages.py lines 23-30), for contrast: it does run
`Cmd.__init__` first. -/
def MoveCmd.initObj (session channel_id : ℤ) : CmdObj :=
  { Cmd.initObj with
      cmd := some (some .moveCmd),
      parameters := some (some [("session", .intVal session),
                                ("channel_id", .intVal channel_id)]) }

/-- `User.mute` (users.py lines 121-133): the `ModUserState` command it
hands to `execute_command`. -/
def User.muteCmd (self_session myself_session : ℤ) : CmdObj :=
  ModUserState.initObj myself_session
    (if self_session = myself_session then
      [("session", .intVal self_session), ("self_mute", .boolVal true)]
     else
      [("session", .intVal self_session), ("mute", .boolVal true)])

/-- The `Commands` store (commands.py lines 16-21). -/
structure CommandsState where
  id : ℕ
  queue : List CmdObj
deriving DecidableEq

/-- `Commands.new_cmd` (commands.py lines 23-33): bumps the id, assigns it
to `cmd.cmd_id` (creating that attribute), appends the command to the
queue, then runs `cmd.lock.acquire()` — which raises `AttributeError` when
the `lock` attribute was never created. -/
def Commands.new_cmd (st : CommandsState) (cmd : CmdObj) :
    Except PyExc (CommandsState × CmdObj) :=
  let id1 := st.id + 1
  let cmd1 : CmdObj := { cmd with cmd_id := some (some id1) }
  let st1 : CommandsState := { id := id1, queue := cmd1 :: st.queue }
  match cmd1.lockHeld with
  | none => .error .attributeError
  | some _ => .ok (st1, { cmd1 with lockHeld := some true })

-- MORE-DEFS-HERE

end Pymumble

deriving instance DecidableEq for Except

namespace Pymumble

-- THEOREMS-BELOW

/-! Helper lemmas for the varint round-trip. -/

set_option maxRecDepth 8192 in
/-- Classification of every first-byte mask test of `decode` on a byte. -/
theorem VarInt.byteTests : ∀ b : ℕ, b < 256 →
    ((b &&& 0b10000000 = 0) ↔ b < 128) ∧
    ((b &&& 0b11111100 = 0b11111000) ↔ (248 ≤ b ∧ b < 252)) ∧
    ((b &&& 0b11111100 = 0b11111100) ↔ 252 ≤ b) ∧
    ((b &&& 0b11000000 = 0b10000000) ↔ (128 ≤ b ∧ b < 192)) ∧
    ((b &&& 0b11100000 = 0b11000000) ↔ (192 ≤ b ∧ b < 224)) ∧
    ((b &&& 0b11110000 = 0b11100000) ↔ (224 ≤ b ∧ b < 240)) ∧
    ((b &&& 0b11111100 = 0b11110000) ↔ (240 ≤ b ∧ b < 244)) ∧
    ((b &&& 0b11111100 = 0b11110100) ↔ (244 ≤ b ∧ b < 248)) := by decide

/-- A bitwise or with a shifted value is an addition when the low bits are free. -/
theorem VarInt.two_pow_mul_lor_eq_add (k m b : ℕ) (hb : b < 2 ^ k) :
    (2 ^ k * m) ||| b = 2 ^ k * m + b := by
  apply Nat.eq_of_testBit_eq
  intro i
  rw [Nat.testBit_or, Nat.testBit_mul_pow_two_add m hb i, Nat.testBit_mul_pow_two]
  by_cases h : i < k
  · have h' : ¬ i ≥ k := by omega
    simp [h, h']
  · have hik : (2 : ℕ) ^ k ≤ 2 ^ i := Nat.pow_le_pow_right (by norm_num) (by omega)
    have hbi : b.testBit i = false := Nat.testBit_lt_two_pow (lt_of_lt_of_le hb hik)
    have h' : i ≥ k := by omega
    simp [h, h', hbi]

theorem VarInt.lor_192 : ∀ b : ℕ, b < 32 →
    ((0xC0 : ℕ) ||| b = 0xC0 + b) ∧ ((0xC0 + b) &&& 0b00011111 = b) := by decide

theorem VarInt.lor_252 : ∀ b : ℕ, b < 4 →
    ((0b11111100 : ℕ) ||| b = 0b11111100 + b) ∧
      ((0b11111100 + b) &&& 0b00000011 = b) := by decide

theorem VarInt.and_mask14 (x : ℕ) : x &&& 0b0011111111111111 = x % 16384 := by
  have h := Nat.and_pow_two_sub_one_eq_mod x 14
  norm_num at h
  exact h

theorem VarInt.and_mask16 (x : ℕ) : (0xFFFF : ℕ) &&& x = x % 65536 := by
  rw [Nat.and_comm]
  have h := Nat.and_pow_two_sub_one_eq_mod x 16
  norm_num at h
  exact h

theorem VarInt.and_mask28 (x : ℕ) : x &&& 0x0FFFFFFF = x % 268435456 := by
  have h := Nat.and_pow_two_sub_one_eq_mod x 28
  norm_num at h
  exact h

/-! Evaluation of `encodeBody` on each of its six ranges. -/

theorem VarInt.encodeBody_eq1 (v : ℕ) (h1 : v ≤ 0x7F) : encodeBody v = [v] := by
  simp only [encodeBody, if_pos h1, pack8]
  rw [Nat.mod_eq_of_lt (by omega)]

theorem VarInt.encodeBody_eq2 (v : ℕ) (h1 : ¬ v ≤ 0x7F) (h2 : v ≤ 0x3FFF) :
    encodeBody v = [128 + v / 256, v % 256] := by
  have hor : (0x8000 : ℕ) ||| v = 0x8000 + v := by
    have h := two_pow_mul_lor_eq_add 15 1 v (by omega)
    norm_num at h
    exact h
  simp only [encodeBody, if_neg h1, if_pos h2, pack16, hor]
  have e1 : (0x8000 + v) / 256 % 256 = 128 + v / 256 := by omega
  have e2 : (0x8000 + v) % 256 = v % 256 := by omega
  rw [e1, e2]

theorem VarInt.encodeBody_eq3 (v : ℕ) (h1 : ¬ v ≤ 0x7F) (h2 : ¬ v ≤ 0x3FFF) (h3 : v ≤ 0x1FFFFF) :
    encodeBody v = [192 + v / 65536, v / 256 % 256, v % 256] := by
  have hsh : v >>> 16 = v / 65536 := by
    rw [Nat.shiftRight_eq_div_pow]
  have hor : (0xC0 : ℕ) ||| (v / 65536) = 0xC0 + v / 65536 :=
    (lor_192 (v / 65536) (by omega)).1
  simp only [encodeBody, if_neg h1, if_neg h2, if_pos h3, pack8, pack16, hsh, hor,
    and_mask16, List.cons_append, List.nil_append, List.cons.injEq, and_true]
  omega

theorem VarInt.encodeBody_eq4 (v : ℕ) (h1 : ¬ v ≤ 0x7F) (h2 : ¬ v ≤ 0x3FFF) (h3 : ¬ v ≤ 0x1FFFFF)
    (h4 : v ≤ 0xFFFFFFF) :
    encodeBody v = [224 + v / 16777216, v / 65536 % 256, v / 256 % 256, v % 256] := by
  have hor : (0xE0000000 : ℕ) ||| v = 0xE0000000 + v := by
    have h := two_pow_mul_lor_eq_add 29 7 v (by omega)
    norm_num at h
    exact h
  simp only [encodeBody, if_neg h1, if_neg h2, if_neg h3, if_pos h4, pack32, hor]
  have e0 : (0xE0000000 + v) / 16777216 % 256 = 224 + v / 16777216 := by omega
  have e1 : (0xE0000000 + v) / 65536 % 256 = v / 65536 % 256 := by omega
  have e2 : (0xE0000000 + v) / 256 % 256 = v / 256 % 256 := by omega
  have e3 : (0xE0000000 + v) % 256 = v % 256 := by omega
  rw [e0, e1, e2, e3]

theorem VarInt.encodeBody_eq5 (v : ℕ) (h1 : ¬ v ≤ 0x7F) (h2 : ¬ v ≤ 0x3FFF) (h3 : ¬ v ≤ 0x1FFFFF)
    (h4 : ¬ v ≤ 0xFFFFFFF) (h5 : v ≤ 0xFFFFFFFF) :
    encodeBody v =
      [240, v / 16777216 % 256, v / 65536 % 256, v / 256 % 256, v % 256] := by
  simp only [encodeBody, if_neg h1, if_neg h2, if_neg h3, if_neg h4, if_pos h5, pack8,
    pack32, List.cons_append, List.nil_append]

theorem VarInt.encodeBody_eq6 (v : ℕ) (h1 : ¬ v ≤ 0x7F) (h2 : ¬ v ≤ 0x3FFF) (h3 : ¬ v ≤ 0x1FFFFF)
    (h4 : ¬ v ≤ 0xFFFFFFF) (h5 : ¬ v ≤ 0xFFFFFFFF) :
    encodeBody v =
      [244, v / 72057594037927936 % 256, v / 281474976710656 % 256,
       v / 1099511627776 % 256, v / 4294967296 % 256, v / 16777216 % 256,
       v / 65536 % 256, v / 256 % 256, v % 256] := by
  simp only [encodeBody, if_neg h1, if_neg h2, if_neg h3, if_neg h4, if_neg h5, pack8,
    pack64, List.cons_append, List.nil_append]

/-- The first byte `encodeBody` emits never matches the negative prefix test. -/
theorem VarInt.encodeBody_head (v : ℕ) (hv : v < 2 ^ 64) :
    ∃ b l, encodeBody v = b :: l ∧ b < 248 := by
  by_cases h1 : v ≤ 0x7F
  · exact ⟨v, _, encodeBody_eq1 v h1, by omega⟩
  by_cases h2 : v ≤ 0x3FFF
  · exact ⟨128 + v / 256, _, encodeBody_eq2 v h1 h2, by omega⟩
  by_cases h3 : v ≤ 0x1FFFFF
  · exact ⟨192 + v / 65536, _, encodeBody_eq3 v h1 h2 h3, by omega⟩
  by_cases h4 : v ≤ 0xFFFFFFF
  · exact ⟨224 + v / 16777216, _, encodeBody_eq4 v h1 h2 h3 h4, by omega⟩
  by_cases h5 : v ≤ 0xFFFFFFFF
  · exact ⟨240, _, encodeBody_eq5 v h1 h2 h3 h4 h5, by omega⟩
  · exact ⟨244, _, encodeBody_eq6 v h1 h2 h3 h4 h5, by omega⟩

/-- Running the decode branch chain on `encodeBody v` recovers `v` (with the
sign the caller has accumulated) and consumes the whole body. -/
theorem VarInt.decodeChain_encodeBody (v : ℕ) (hv : v < 2 ^ 64) (neg : Bool) (s : ℕ) :
    decodeChain (encodeBody v) neg s =
      .ok (applySign neg v, s + (encodeBody v).length) := by
  by_cases h1 : v ≤ 0x7F
  · rw [encodeBody_eq1 v h1]
    have hc1 : v &&& 0b10000000 = 0 := (byteTests v (by omega)).1.mpr (by omega)
    simp only [decodeChain, if_pos hc1, List.length_cons, List.length_nil]
  by_cases h2 : v ≤ 0x3FFF
  · rw [encodeBody_eq2 v h1 h2]
    have hbt := byteTests (128 + v / 256) (by omega)
    have hc1 : ¬ ((128 + v / 256) &&& 0b10000000 = 0) := by rw [hbt.1]; omega
    have hc3 : ¬ ((128 + v / 256) &&& 0b11111100 = 0b11111100) := by rw [hbt.2.2.1]; omega
    have hc4 : (128 + v / 256) &&& 0b11000000 = 0b10000000 := hbt.2.2.2.1.mpr (by omega)
    simp only [decodeChain, if_neg hc1, if_neg hc3, if_pos hc4, List.length_cons,
      List.length_nil]
    have hval : unpack16 (128 + v / 256) (v % 256) &&& 0b0011111111111111 = v := by
      rw [and_mask14]
      simp only [unpack16]
      omega
    rw [hval]
  by_cases h3 : v ≤ 0x1FFFFF
  · rw [encodeBody_eq3 v h1 h2 h3]
    have hbt := byteTests (192 + v / 65536) (by omega)
    have hc1 : ¬ ((192 + v / 65536) &&& 0b10000000 = 0) := by rw [hbt.1]; omega
    have hc3 : ¬ ((192 + v / 65536) &&& 0b11111100 = 0b11111100) := by rw [hbt.2.2.1]; omega
    have hc4 : ¬ ((192 + v / 65536) &&& 0b11000000 = 0b10000000) := by
      rw [hbt.2.2.2.1]; omega
    have hc5 : (192 + v / 65536) &&& 0b11100000 = 0b11000000 :=
      hbt.2.2.2.2.1.mpr (by omega)
    simp only [decodeChain, if_neg hc1, if_neg hc3, if_neg hc4, if_pos hc5,
      List.length_cons, List.length_nil]
    have hval : (((192 + v / 65536) &&& 0b00011111) <<< 16)
        + unpack16 (v / 256 % 256) (v % 256) = v := by
      rw [(lor_192 (v / 65536) (by omega)).2]
      rw [Nat.shiftLeft_eq]
      simp only [unpack16]
      omega
    rw [hval]
  by_cases h4 : v ≤ 0xFFFFFFF
  · rw [encodeBody_eq4 v h1 h2 h3 h4]
    have hbt := byteTests (224 + v / 16777216) (by omega)
    have hc1 : ¬ ((224 + v / 16777216) &&& 0b10000000 = 0) := by rw [hbt.1]; omega
    have hc3 : ¬ ((224 + v / 16777216) &&& 0b11111100 = 0b11111100) := by
      rw [hbt.2.2.1]; omega
    have hc4 : ¬ ((224 + v / 16777216) &&& 0b11000000 = 0b10000000) := by
      rw [hbt.2.2.2.1]; omega
    have hc5 : ¬ ((224 + v / 16777216) &&& 0b11100000 = 0b11000000) := by
      rw [hbt.2.2.2.2.1]; omega
    have hc6 : (224 + v / 16777216) &&& 0b11110000 = 0b11100000 :=
      hbt.2.2.2.2.2.1.mpr (by omega)
    simp only [decodeChain, if_neg hc1, if_neg hc3, if_neg hc4, if_neg hc5, if_pos hc6,
      List.length_cons, List.length_nil]
    have hval : unpack32 (224 + v / 16777216) (v / 65536 % 256) (v / 256 % 256) (v % 256)
        &&& 0x0FFFFFFF = v := by
      rw [and_mask28]
      simp only [unpack32]
      omega
    rw [hval]
  by_cases h5 : v ≤ 0xFFFFFFFF
  · rw [encodeBody_eq5 v h1 h2 h3 h4 h5]
    have hc1 : ¬ ((240 : ℕ) &&& 0b10000000 = 0) := by decide
    have hc3 : ¬ ((240 : ℕ) &&& 0b11111100 = 0b11111100) := by decide
    have hc4 : ¬ ((240 : ℕ) &&& 0b11000000 = 0b10000000) := by decide
    have hc5 : ¬ ((240 : ℕ) &&& 0b11100000 = 0b11000000) := by decide
    have hc6 : ¬ ((240 : ℕ) &&& 0b11110000 = 0b11100000) := by decide
    have hc7 : (240 : ℕ) &&& 0b11111100 = 0b11110000 := by decide
    simp only [decodeChain, if_neg hc1, if_neg hc3, if_neg hc4, if_neg hc5, if_neg hc6,
      if_pos hc7, List.length_cons, List.length_nil]
    have hval : unpack32 (v / 16777216 % 256) (v / 65536 % 256) (v / 256 % 256) (v % 256)
        = v := by
      simp only [unpack32]
      omega
    rw [hval]
  · rw [encodeBody_eq6 v h1 h2 h3 h4 h5]
    have hc1 : ¬ ((244 : ℕ) &&& 0b10000000 = 0) := by decide
    have hc3 : ¬ ((244 : ℕ) &&& 0b11111100 = 0b11111100) := by decide
    have hc4 : ¬ ((244 : ℕ) &&& 0b11000000 = 0b10000000) := by decide
    have hc5 : ¬ ((244 : ℕ) &&& 0b11100000 = 0b11000000) := by decide
    have hc6 : ¬ ((244 : ℕ) &&& 0b11110000 = 0b11100000) := by decide
    have hc7 : ¬ ((244 : ℕ) &&& 0b11111100 = 0b11110000) := by decide
    have hc8 : (244 : ℕ) &&& 0b11111100 = 0b11110100 := by decide
    simp only [decodeChain, if_neg hc1, if_neg hc3, if_neg hc4, if_neg hc5, if_neg hc6,
      if_neg hc7, if_pos hc8, List.length_cons, List.length_nil]
    have hval : unpack64 (v / 72057594037927936 % 256) (v / 281474976710656 % 256)
        (v / 1099511627776 % 256) (v / 4294967296 % 256) (v / 16777216 % 256)
        (v / 65536 % 256) (v / 256 % 256) (v % 256) = v := by
      simp only [unpack64]
      omega
    rw [hval]

/-- `decode` routes an `encodeBody` output straight into the branch chain. -/
theorem VarInt.decode_encodeBody (v : ℕ) (hv : v < 2 ^ 64) :
    decode (encodeBody v) = decodeChain (encodeBody v) false 0 := by
  obtain ⟨b, l, he, hb⟩ := encodeBody_head v hv
  rw [he]
  simp only [decode]
  rw [if_neg]
  rw [(byteTests b (by omega)).2.1]
  omega

/-- `decode` strips the `0b11111000` prefix and decodes the body negated. -/
theorem VarInt.decode_negPrefix (v : ℕ) (hv : v < 2 ^ 64) :
    decode (248 :: encodeBody v) = decodeChain (encodeBody v) true 1 := by
  obtain ⟨b, l, he, hb⟩ := encodeBody_head v hv
  rw [he]
  simp only [decode]
  rw [if_pos (by decide)]

/-- C4: for every integer `n` in `[-2^63, 2^63)`, `VarInt(n).encode()` yields a
byte string that `VarInt.decode` parses back to exactly `n`, returning the
full encoded length as the number of bytes consumed. -/
theorem varint_roundtrip (n : ℤ) (h1 : -(2 ^ 63) ≤ n) (h2 : n < 2 ^ 63) :
    VarInt.decode (VarInt.encode n) = .ok (n, (VarInt.encode n).length) := by
  have hv : n.natAbs < 2 ^ 64 := by omega
  by_cases hneg : n < 0
  · by_cases h3 : -3 ≤ n
    · have hn : n = -1 ∨ n = -2 ∨ n = -3 := by omega
      rcases hn with h | h | h <;> subst h <;> rfl
    · have he : VarInt.encode n = 248 :: VarInt.encodeBody n.natAbs := by
        simp only [VarInt.encode, if_pos hneg, if_neg h3, VarInt.pack8,
          List.cons_append, List.nil_append]
        try rfl
      rw [he, VarInt.decode_negPrefix _ hv, VarInt.decodeChain_encodeBody _ hv]
      have hval : VarInt.applySign true n.natAbs = n := by
        simp only [VarInt.applySign, if_pos]
        omega
      rw [hval]
      simp only [List.length_cons, Except.ok.injEq, Prod.mk.injEq]
      exact ⟨trivial, by omega⟩
  · have he : VarInt.encode n = VarInt.encodeBody n.natAbs := by
      simp only [VarInt.encode, if_neg hneg]
    rw [he, VarInt.decode_encodeBody _ hv, VarInt.decodeChain_encodeBody _ hv]
    have hval : VarInt.applySign false n.natAbs = n := by
      simp only [VarInt.applySign, Bool.false_eq_true, if_false]
      omega
    rw [hval]
    simp only [Except.ok.injEq, Prod.mk.injEq]
    exact ⟨trivial, by omega⟩

/-- Witness for C4 at `n = 300`. -/
theorem varint_roundtrip_witness :
    (-(2 ^ 63) ≤ (300 : ℤ)) ∧ ((300 : ℤ) < 2 ^ 63) ∧
      VarInt.decode (VarInt.encode 300) = .ok (300, (VarInt.encode 300).length) :=
  ⟨by decide, by decide, varint_roundtrip 300 (by decide) (by decide)⟩

/-- C5 counterexample: the encoder emits the two-byte prefixed form for `-4`,
not the single byte `0xFC` the claim requires. -/
theorem varint_encode_neg4_counterexample :
    VarInt.encode (-4) = [0xF8, 0x04] ∧ VarInt.encode (-4) ≠ [0xFC] := by
  constructor
  · rfl
  · decide

/-- C5 (amended): the `111111xx` short form is used exactly for `n ∈ [-3, -1]`
(one byte `0xFC | |n|`); every `n ≤ -4` is encoded as the prefix byte `0xF8`
followed by the encoding of `|n|`; concretely `encode(-1) = [0xFD]`,
`encode(-4) = [0xF8, 0x04]` and `encode(-5) = [0xF8, 0x05]`. -/
theorem varint_negative_encoding_amended :
    (∀ n : ℤ, -3 ≤ n → n ≤ -1 → VarInt.encode n = [0b11111100 ||| n.natAbs])
    ∧ (∀ n : ℤ, n ≤ -4 → VarInt.encode n = 0b11111000 :: VarInt.encodeBody n.natAbs)
    ∧ VarInt.encode (-1) = [0xFD]
    ∧ VarInt.encode (-4) = [0xF8, 0x04]
    ∧ VarInt.encode (-5) = [0xF8, 0x05] := by
  refine ⟨?_, ?_, rfl, rfl, rfl⟩
  · intro n hge hle
    simp only [VarInt.encode, if_pos (show n < 0 by omega), if_pos hge, VarInt.pack8]
    have h4 : n.natAbs < 4 := by omega
    have hor := (VarInt.lor_252 n.natAbs h4).1
    rw [hor, Nat.mod_eq_of_lt (by omega), ← hor]
  · intro n hle
    simp only [VarInt.encode, if_pos (show n < 0 by omega),
      if_neg (show ¬ -3 ≤ n by omega), VarInt.pack8, List.cons_append, List.nil_append]
    try rfl

/-- Witness for the amended C5 at `n = -2` and `n = -6`. -/
theorem varint_negative_encoding_witness :
    ((-3 : ℤ) ≤ -2 ∧ (-2 : ℤ) ≤ -1
      ∧ VarInt.encode (-2) = [0b11111100 ||| (-2 : ℤ).natAbs])
    ∧ ((-6 : ℤ) ≤ -4 ∧ VarInt.encode (-6) = 0b11111000 :: VarInt.encodeBody (-6 : ℤ).natAbs) :=
  ⟨⟨by decide, by decide, varint_negative_encoding_amended.1 (-2) (by decide) (by decide)⟩,
   ⟨by decide, varint_negative_encoding_amended.2.1 (-6) (by decide)⟩⟩

/-! ## Sound queue theorems -/

/-- The reordering loop stabilises after at most one swap, because `cpt`
never advances: any fuel of at least one computes the same queue. -/
theorem bubbleLoop_fuel_ge_one (fuel : ℕ) (q : List SoundChunk) :
    bubbleLoop (fuel + 1) q = bubbleLoop 1 q := by
  cases q with
  | nil => cases fuel <;> rfl
  | cons c0 t =>
    cases t with
    | nil => cases fuel <;> rfl
    | cons c1 rest =>
      simp only [bubbleLoop]
      by_cases h : c0.time < c1.time
      · rw [if_pos h, if_pos h]
        cases fuel with
        | zero => rfl
        | succ f =>
          simp only [bubbleLoop]
          rw [if_neg (by exact not_lt_of_gt h)]
      · rw [if_neg h, if_neg h]

/-- C1 (refuting run): after adds with sequences `1, 1000, 500, 2` in a
single burst started at wallclock 10, the queue playout times are
`[19.99, 10.01, 14.99, 10]`: the pair at indices 1 and 2 violates
`q[i].time ≥ q[i+1].time`, because the reordering loop of
`SoundQueue.add` never increments `cpt` and therefore sinks a new chunk by
at most one position. -/
theorem soundqueue_order_violated :
    queueOrdered (SoundQueue.addMany initialSoundQueue
      [([0, 0], 1, 10), ([0, 0], 1000, 11), ([0, 0], 500, 12), ([0, 0], 2, 13)]).queue
      = false := by
  norm_num [SoundQueue.addMany, SoundQueue.add, initialSoundQueue, optTruthy,
    SoundChunk.mkChunk, bubbleLoop, queueOrdered, PYMUMBLE_SEQUENCE_DURATION,
    Option.getD]

/-- C6 counterexample: splitting the 20-byte chunk at
`d = 1/10000 s` (not a whole number of samples: `d · 96000 = 9.6`)
truncates to 9 bytes, and the two durations no longer sum to the original:
`9/96000 + (20/96000 − 9.6/96000) ≠ 20/96000`. -/
theorem extract_sound_duration_counterexample :
    ((0 : ℚ) < 1 / 10000) ∧ ((1 / 10000 : ℚ) < exampleChunk.duration) ∧
      (exampleChunk.extract_sound (1 / 10000)).1.duration
        + (exampleChunk.extract_sound (1 / 10000)).2.duration
        ≠ exampleChunk.duration := by
  have hq : ((1 : ℚ) / 10000 * 2 * (PYMUMBLE_SAMPLERATE : ℚ)) = 48 / 5 := by
    norm_num [PYMUMBLE_SAMPLERATE]
  have hfl : ⌊(48 / 5 : ℚ)⌋ = 9 := by
    rw [Int.floor_eq_iff]
    norm_num
  have hpy : pyInt ((1 : ℚ) / 10000 * 2 * (PYMUMBLE_SAMPLERATE : ℚ)) = 9 := by
    rw [hq]
    simp only [pyInt]
    rw [if_pos (by norm_num : (0 : ℚ) ≤ 48 / 5), hfl]
  refine ⟨by norm_num, ?_, ?_⟩
  · norm_num [exampleChunk, SoundChunk.mkChunk, PYMUMBLE_SAMPLERATE]
  · simp only [SoundChunk.extract_sound, SoundChunk.mkChunk, hpy]
    norm_num [exampleChunk, SoundChunk.mkChunk, PYMUMBLE_SAMPLERATE]

/-- C6 (amended): for `0 < d < c.duration`, `extract_sound` always conserves
the PCM bytes (`a.pcm ++ rest.pcm = c.pcm`) and advances the playout time of
the remainder by exactly `d`; the durations `a.duration + rest.duration`
sum back to `c.duration` whenever `d · 2 · 48000` is a whole number of
bytes (otherwise `int()` truncation loses the fractional sample). -/
theorem extract_sound_conservation (c : SoundChunk) (d : ℚ)
    (_h0 : 0 < d) (_h1 : d < c.duration) :
    (c.extract_sound d).1.pcm ++ (c.extract_sound d).2.pcm = c.pcm
    ∧ (c.extract_sound d).2.time = c.time + d
    ∧ ((d * 2 * (PYMUMBLE_SAMPLERATE : ℚ)).den = 1 →
        (c.extract_sound d).1.duration + (c.extract_sound d).2.duration = c.duration) := by
  refine ⟨List.take_append_drop _ _, rfl, ?_⟩
  intro hden
  have hnum : ((d * 2 * (PYMUMBLE_SAMPLERATE : ℚ)).num : ℚ) = d * 2 * (PYMUMBLE_SAMPLERATE : ℚ) := by
    conv_rhs => rw [← Rat.num_div_den (d * 2 * (PYMUMBLE_SAMPLERATE : ℚ))]
    rw [hden]
    norm_num
  have hpy : (pyInt (d * 2 * (PYMUMBLE_SAMPLERATE : ℚ)) : ℚ) = d * 2 * (PYMUMBLE_SAMPLERATE : ℚ) := by
    simp only [pyInt]
    by_cases h0q : (0 : ℚ) ≤ d * 2 * (PYMUMBLE_SAMPLERATE : ℚ)
    · rw [if_pos h0q, ← hnum, Int.floor_intCast, hnum]
    · rw [if_neg h0q, ← hnum, ← Int.cast_neg, Int.floor_intCast]
      push_cast
      ring
  simp only [SoundChunk.extract_sound, SoundChunk.mkChunk]
  rw [hpy]
  have hsr : ((PYMUMBLE_SAMPLERATE : ℕ) : ℚ) ≠ 0 := by
    norm_num [PYMUMBLE_SAMPLERATE]
  field_simp
  ring

/-- Witness for the amended C6 at the 20-byte chunk and `d = 1/9600 s`
(exactly 10 bytes). -/
theorem extract_sound_conservation_witness :
    ((0 : ℚ) < 1 / 9600) ∧ ((1 / 9600 : ℚ) < exampleChunk.duration)
    ∧ ((exampleChunk.extract_sound (1 / 9600)).1.pcm
          ++ (exampleChunk.extract_sound (1 / 9600)).2.pcm = exampleChunk.pcm
        ∧ (exampleChunk.extract_sound (1 / 9600)).2.time = exampleChunk.time + 1 / 9600
        ∧ (((1 / 9600 : ℚ) * 2 * (PYMUMBLE_SAMPLERATE : ℚ)).den = 1 →
            (exampleChunk.extract_sound (1 / 9600)).1.duration
              + (exampleChunk.extract_sound (1 / 9600)).2.duration
              = exampleChunk.duration)) :=
  ⟨by norm_num, by norm_num [exampleChunk, SoundChunk.mkChunk, PYMUMBLE_SAMPLERATE],
    extract_sound_conservation exampleChunk (1 / 9600) (by norm_num)
      (by norm_num [exampleChunk, SoundChunk.mkChunk, PYMUMBLE_SAMPLERATE])⟩

/-- C10: when the stored burst anchor `start_sequence` equals 0 (which
Python truthiness treats like `None`), the next `add` call starts a new
burst whatever its sequence number: the playout time of the chunk is the
current wallclock and the anchors are reset to `now` and `sequence`. -/
theorem zero_anchor_restarts_burst (st : SoundQueueState) (pcm : List ℕ)
    (sequence : ℤ) (type target : ℕ) (now : ℚ)
    (h : st.start_sequence = some 0) :
    (SoundQueue.add st pcm sequence type target now).2.time = now
    ∧ (SoundQueue.add st pcm sequence type target now).1.start_time = some now
    ∧ (SoundQueue.add st pcm sequence type target now).1.start_sequence = some sequence := by
  simp [SoundQueue.add, h, optTruthy, SoundChunk.mkChunk]

/-- Witness for C10: anchor 0, sequence 77, wallclock 42. -/
theorem zero_anchor_restarts_burst_witness :
    ({ queue := [], start_sequence := some 0, start_time := some 5 }
        : SoundQueueState).start_sequence = some 0
    ∧ ((SoundQueue.add { queue := [], start_sequence := some 0, start_time := some 5 }
          [0, 0] 77 4 0 42).2.time = 42
      ∧ (SoundQueue.add { queue := [], start_sequence := some 0, start_time := some 5 }
          [0, 0] 77 4 0 42).1.start_time = some 42
      ∧ (SoundQueue.add { queue := [], start_sequence := some 0, start_time := some 5 }
          [0, 0] 77 4 0 42).1.start_sequence = some 77) :=
  ⟨rfl, zero_anchor_restarts_burst _ [0, 0] 77 4 0 42 rfl⟩

/-! ## Channel tree theorems -/

/-- C2 (refuting run): on the well-formed two-level map
`{0: "Root", 1: "Lobby" (parent 0)} ∪ {2: "Team" (parent 1)}`, `get_tree`
of the non-root channel "Lobby" never terminates, for any iteration
budget: the loop reloads `self[current["channel_id"]]` — the same channel
it is standing on — instead of the parent, so `current` never changes. -/
theorem get_tree_never_terminates :
    ∀ fuel : ℕ, Channels.get_tree exampleChannels fuel exampleLobby = none := by
  have h : ∀ fuel tree, getTreeAux exampleChannels fuel exampleLobby tree = none := by
    intro fuel
    induction fuel with
    | zero =>
      intro tree
      rfl
    | succ f ih =>
      intro tree
      have hl : Channels.lookup exampleChannels exampleLobby.channel_id
          = some exampleLobby := rfl
      simp only [getTreeAux]
      rw [if_pos (by decide), hl]
      exact ih _
  intro fuel
  exact h fuel []

/-- C3 (refuting run): on the claim fixture, both
`find_by_tree(["Lobby","Team"])` and `find_by_tree(["Lobby","Ghost"])`
raise `AttributeError`, not `UnknownChannelError`, and nothing returns
channel 2: channels.py line 61 calls `.values()` on the plain list
`get_childs` returns, so every non-empty path fails before any child name
is compared.  Only the empty path ever succeeds, returning `self[0]`.
(Even with `.values()` removed, `get_childs` would still drop every child
whose parent id is 0 — Python truthiness of `item.get("parent")` — so the
claimed walk from the root could not succeed either.) -/
theorem find_by_tree_attribute_error :
    Channels.find_by_tree exampleChannels ["Lobby", "Team"]
      = .error .attributeError
    ∧ Channels.find_by_tree exampleChannels ["Lobby", "Ghost"]
      = .error .attributeError
    ∧ Channels.find_by_tree exampleChannels []
      = .ok { channel_id := 0, name := some "Root", parent := none } := by
  exact ⟨rfl, rfl, rfl⟩

/-! ## Diff exclusion lemmas (users.py / channels.py) -/

/-- Renaming-under-assignment: overwriting key `n` leaves membership of any
other key `k` unchanged, on the mapped list. -/
theorem anyKey_map_set (l : List (String × FieldValue)) (n : String) (v : FieldValue)
    (k : String) (hne : n ≠ k) :
    (l.map (fun kv => if kv.1 = n then (n, v) else kv)).any (fun kv => kv.1 = k)
      = l.any (fun kv => kv.1 = k) := by
  induction l with
  | nil => rfl
  | cons kv rest ih =>
    simp only [List.map_cons, List.any_cons, ih]
    by_cases hk : kv.1 = n
    · rw [if_pos hk]
      simp [hk, hne]
    · rw [if_neg hk]

/-- `self[n] = v` leaves membership of any other key unchanged. -/
theorem hasKey_set_ne (bag : AttrBag) (n : String) (v : FieldValue) (k : String)
    (hne : n ≠ k) : AttrBag.hasKey (AttrBag.set bag n v) k = AttrBag.hasKey bag k := by
  simp only [AttrBag.set]
  by_cases hb : AttrBag.hasKey bag n
  · rw [if_pos hb]
    simp only [AttrBag.hasKey]
    exact anyKey_map_set bag n v k hne
  · rw [if_neg hb]
    simp only [AttrBag.hasKey, List.any_append, List.any_cons, List.any_nil]
    simp [hne]

/-- Merging the diff of `update_field` for key `n` cannot introduce a
different key `k` into the actions dict. -/
theorem hasKey_dictUpdate_update_field (acc self2 : AttrBag) (n : String)
    (v : FieldValue) (k : String) (hne : n ≠ k) :
    AttrBag.hasKey (dictUpdate acc (update_field self2 n v).2) k
      = AttrBag.hasKey acc k := by
  simp only [update_field]
  by_cases h : AttrBag.get? self2 n = some v
  · rw [if_pos h]
    rfl
  · rw [if_neg h]
    simp only [dictUpdate, List.foldl_cons, List.foldl_nil]
    exact hasKey_set_ne acc n v k hne

/-- The field loop never puts a skipped name into the actions dict. -/
theorem updateLoop_skip_key (skip : String → Bool)
    (fields : List (String × FieldValue)) (acc : AttrBag × AttrBag) (k : String)
    (hsk : skip k = true) (h0 : AttrBag.hasKey acc.2 k = false) :
    AttrBag.hasKey (updateLoop skip acc fields).2 k = false := by
  induction fields generalizing acc with
  | nil => exact h0
  | cons fv rest ih =>
    simp only [updateLoop]
    by_cases hs : skip fv.1
    · rw [if_pos hs]
      exact ih acc h0
    · rw [if_neg hs]
      refine ih _ ?_
      have hne : fv.1 ≠ k := fun he => hs (he ▸ hsk)
      show AttrBag.hasKey (dictUpdate acc.2 (update_field acc.1 fv.1 fv.2).2) k = false
      rw [hasKey_dictUpdate_update_field acc.2 acc.1 fv.1 fv.2 k hne]
      exact h0

/-- The actor seeding contains no key other than `"actor"`. -/
theorem hasKey_userActions0 (m : PbMessage) (k : String) (hk : k ≠ "actor") :
    AttrBag.hasKey (userActions0 m) k = false := by
  simp only [userActions0]
  cases m.getField "actor" with
  | none => rfl
  | some v =>
    simp [AttrBag.hasKey, Ne.symm hk]

/-- C7 counterexample: on a fresh user and a `UserState` message carrying
`session`, `actor`, an inline `comment` and its `comment_hash`, the diff
`User.update` returns contains both the key `actor` (seeded explicitly at
users.py lines 83-84) and the key `comment_hash` (the field loop does not
skip it), contradicting the claimed exclusions. -/
theorem user_update_diff_includes_actor_counterexample :
    AttrBag.hasKey (User.update exampleUser { cache := [], sent := [] }
        exampleUserStateMsg).2.1 "actor" = true
    ∧ AttrBag.hasKey (User.update exampleUser { cache := [], sent := [] }
        exampleUserStateMsg).2.1 "comment_hash" = true :=
  ⟨rfl, rfl⟩

/-- C7 (amended): for every user, channel, blob state and message, the
diff of `User.update` never contains `session` nor the inline bytes fields
`comment` and `texture`, and the diff of `Channel.update` never contains
`session` or `actor`.  (The User diff does contain `actor` whenever the
message carries it, and the hash fields can appear in either diff — see
the counterexample.) -/
theorem update_diff_exclusions (self selfC : AttrBag) (blobs blobsC : BlobsState)
    (m mC : PbMessage) :
    AttrBag.hasKey (User.update self blobs m).2.1 "session" = false
    ∧ AttrBag.hasKey (User.update self blobs m).2.1 "comment" = false
    ∧ AttrBag.hasKey (User.update self blobs m).2.1 "texture" = false
    ∧ AttrBag.hasKey (Channel.update selfC blobsC mC).2.1 "session" = false
    ∧ AttrBag.hasKey (Channel.update selfC blobsC mC).2.1 "actor" = false := by
  have huser : ∀ k : String, userSkipNames k = true → k ≠ "actor" →
      AttrBag.hasKey (User.update self blobs m).2.1 k = false := by
    intro k hsk hka
    have he : (User.update self blobs m).2.1
        = (updateLoop userSkipNames (self, userActions0 m) m.fields).2 := rfl
    rw [he]
    exact updateLoop_skip_key userSkipNames m.fields (self, userActions0 m) k hsk
      (hasKey_userActions0 m k hka)
  have hchanSa : ∀ k : String, channelSkipNames k = true →
      AttrBag.hasKey (updateLoop channelSkipNames (selfC, []) mC.fields).2 k = false := by
    intro k hsk
    exact updateLoop_skip_key channelSkipNames mC.fields (selfC, []) k hsk rfl
  have hchan : ∀ k : String, channelSkipNames k = true → k ≠ "description_hash" →
      AttrBag.hasKey (Channel.update selfC blobsC mC).2.1 k = false := by
    intro k hsk hkd
    cases hdh : mC.getField "description_hash" with
    | none =>
      have he : (Channel.update selfC blobsC mC).2.1
          = (updateLoop channelSkipNames (selfC, []) mC.fields).2 := by
        simp only [Channel.update, hdh]
      rw [he]
      exact hchanSa k hsk
    | some h =>
      have he : (Channel.update selfC blobsC mC).2.1
          = dictUpdate (updateLoop channelSkipNames (selfC, []) mC.fields).2
              (update_field (updateLoop channelSkipNames (selfC, []) mC.fields).1
                "description_hash" h).2 := by
        cases hdesc : mC.getField "description" <;> simp only [Channel.update, hdh, hdesc]
      rw [he, hasKey_dictUpdate_update_field _ _ _ _ _ (Ne.symm hkd)]
      exact hchanSa k hsk
  exact ⟨huser "session" rfl (by decide), huser "comment" rfl (by decide),
    huser "texture" rfl (by decide), hchan "session" rfl (by decide),
    hchan "actor" rfl (by decide)⟩

/-! ## Blob cache theorems -/

/-- C8 counterexample: starting from an empty cache, two consecutive
fetches for the same (never answered) 20-byte hash send two `RequestBlob`
messages in total — for each of the three fetch operations — because the
fetch path never inserts the hash into the cache, so the second fetch is
not suppressed. -/
theorem blob_fetch_two_requests_counterexample :
    ((Blobs.get_user_comment { cache := [], sent := [] } exampleHash).bind
        (fun st1 => Blobs.get_user_comment st1 exampleHash)).map
      (fun st2 => st2.sent.length) = some 2
    ∧ ((Blobs.get_user_texture { cache := [], sent := [] } exampleHash).bind
        (fun st1 => Blobs.get_user_texture st1 exampleHash)).map
      (fun st2 => st2.sent.length) = some 2
    ∧ ((Blobs.get_channel_description { cache := [], sent := [] } exampleHash).bind
        (fun st1 => Blobs.get_channel_description st1 exampleHash)).map
      (fun st2 => st2.sent.length) = some 2 :=
  ⟨rfl, rfl, rfl⟩

/-- C8 (amended): each of the three blob fetch operations sends a request
exactly when the hash is missing from the cache, and never mutates the
cache itself: a fetch for a cached hash returns the state unchanged with
no message, and a fetch for an uncached 20-byte hash appends exactly one
`RequestBlob` (carrying the unpacked hash in the field proper to the
operation) while the cache stays as it was.  Two fetches therefore cause
at most one request only when the blob got cached (from inline message
bytes or a server reply) before the second call. -/
theorem blob_fetch_sends_iff_uncached (st : BlobsState) (h : List ℕ)
    (hlen : h.length = 20) :
    (BlobsState.hasHash st (.bytesVal h) = true →
      Blobs.get_user_comment st (.bytesVal h) = some st
      ∧ Blobs.get_user_texture st (.bytesVal h) = some st
      ∧ Blobs.get_channel_description st (.bytesVal h) = some st)
    ∧ (BlobsState.hasHash st (.bytesVal h) = false →
      Blobs.get_user_comment st (.bytesVal h)
        = some { cache := st.cache,
                 sent := st.sent
                   ++ [({ session_comment := beWords h,
                          session_texture := [],
                          channel_description := [] } : RequestBlob)] }
      ∧ Blobs.get_user_texture st (.bytesVal h)
        = some { cache := st.cache,
                 sent := st.sent
                   ++ [({ session_comment := [],
                          session_texture := beWords h,
                          channel_description := [] } : RequestBlob)] }
      ∧ Blobs.get_channel_description st (.bytesVal h)
        = some { cache := st.cache,
                 sent := st.sent
                   ++ [({ session_comment := [],
                          session_texture := [],
                          channel_description := beWords h } : RequestBlob)] }) := by
  constructor
  · intro hc
    refine ⟨?_, ?_, ?_⟩
    · simp [Blobs.get_user_comment, hc]
    · simp [Blobs.get_user_texture, hc]
    · simp [Blobs.get_channel_description, hc]
  · intro hc
    refine ⟨?_, ?_, ?_⟩
    · simp [Blobs.get_user_comment, hc, unpack5I, hlen]
    · simp [Blobs.get_user_texture, hc, unpack5I, hlen]
    · simp [Blobs.get_channel_description, hc, unpack5I, hlen]

/-- Witness for the amended C8 at the empty state and the all-zero hash. -/
theorem blob_fetch_sends_iff_uncached_witness :
    (List.replicate 20 0).length = 20
    ∧ ((BlobsState.hasHash { cache := [], sent := [] }
          (.bytesVal (List.replicate 20 0)) = true →
        Blobs.get_user_comment { cache := [], sent := [] }
          (.bytesVal (List.replicate 20 0)) = some { cache := [], sent := [] }
        ∧ Blobs.get_user_texture { cache := [], sent := [] }
          (.bytesVal (List.replicate 20 0)) = some { cache := [], sent := [] }
        ∧ Blobs.get_channel_description { cache := [], sent := [] }
          (.bytesVal (List.replicate 20 0)) = some { cache := [], sent := [] })
      ∧ (BlobsState.hasHash { cache := [], sent := [] }
          (.bytesVal (List.replicate 20 0)) = false →
        Blobs.get_user_comment { cache := [], sent := [] }
          (.bytesVal (List.replicate 20 0))
          = some { cache := ([] : List (FieldValue × FieldValue)),
                   sent := ([] : List RequestBlob)
                     ++ [({ session_comment := beWords (List.replicate 20 0),
                            session_texture := [],
                            channel_description := [] } : RequestBlob)] }
        ∧ Blobs.get_user_texture { cache := [], sent := [] }
          (.bytesVal (List.replicate 20 0))
          = some { cache := ([] : List (FieldValue × FieldValue)),
                   sent := ([] : List RequestBlob)
                     ++ [({ session_comment := [],
                            session_texture := beWords (List.replicate 20 0),
                            channel_description := [] } : RequestBlob)] }
        ∧ Blobs.get_channel_description { cache := [], sent := [] }
          (.bytesVal (List.replicate 20 0))
          = some { cache := ([] : List (FieldValue × FieldValue)),
                   sent := ([] : List RequestBlob)
                     ++ [({ session_comment := [],
                            session_texture := [],
                            channel_description :=
                              beWords (List.replicate 20 0) } : RequestBlob)] })) :=
  ⟨rfl, blob_fetch_sends_iff_uncached { cache := [], sent := [] }
    (List.replicate 20 0) rfl⟩

/-! ## Command envelope theorems -/

/-- C9 (refuting run): the `ModUserState` command that `User.mute` builds
has neither `cmd_id` nor `lock` (its constructor skips `Cmd.__init__`), so
`Commands.new_cmd` raises `AttributeError` at `cmd.lock.acquire()` — on a
fresh store for session 5 muting itself, and in general for every store
state and parameter dict; a `MoveCmd`, whose constructor does call
`Cmd.__init__`, goes through. -/
theorem new_cmd_modUserState_attribute_error :
    Commands.new_cmd { id := 0, queue := [] } (User.muteCmd 5 5)
      = .error .attributeError
    ∧ (∀ (st : CommandsState) (session : ℤ) (params : List (String × FieldValue)),
        Commands.new_cmd st (ModUserState.initObj session params)
          = .error .attributeError)
    ∧ (∀ (st : CommandsState) (session channel_id : ℤ),
        ∃ r, Commands.new_cmd st (MoveCmd.initObj session channel_id) = .ok r) :=
  ⟨rfl, fun _ _ _ => rfl, fun _ _ _ => ⟨_, rfl⟩⟩

-- MORE-THEOREMS-HERE

end Pymumble
